import Mathlib

/-!
Shallow embedding of the appointment-request workflow of the health-app
repository.  The embedded operations come from `src/app/welcome/page.tsx`
(patient and doctor dashboards: the voice pipeline, request submission,
scheduling, flagging, resubmission, and the two doctor-side fetches) and
`src/components/auth/AuthForm.tsx` (the only other Firestore write in the
repository, which touches the `users` collection only).

Modelling conventions:
  * Firestore document ids are `Nat`; `addDoc`'s id generation is modelled
    by a `nextRequestId` counter in the database state.
  * JS `Date` instants and Firestore timestamps are modelled as `Nat`
    (milliseconds); `date-fns` `format(d, "PPP")` is modelled as a
    deterministic injective rendering of the instant into a string.
  * Nullable / optional TS fields are `Option`; JS truthiness of optional
    strings and booleans is modelled explicitly (`none` and `some ""`,
    resp. `none` and `some false`, are falsy).
  * Fallible external calls (transcription, chat completion) are
    parameters returning `Except String String`; a `throw` is `.error`.
  * `toast` notifications and invocations of the pipeline steps are
    recorded as explicit output lists so that theorems can speak about
    which notifications are surfaced and which steps run.
-/

/-- The status string of an appointment request:
`'pending' | 'scheduled' | 'completed'` (page.tsx line 38). -/
inductive RequestStatus where
  | pending
  | scheduled
  | completed
deriving DecidableEq

/-- The `AppointmentRequest` interface (page.tsx lines 31-44).  Optional
fields are `Option`; a document created without a field carries `none`. -/
structure AppointmentRequest where
  id : Nat
  patientId : String
  patientUsername : String
  symptoms : String
  diagnosis : String
  medication : Option String
  status : RequestStatus
  createdAt : Nat
  scheduledDate : Option Nat
  scheduledTime : Option String
  flaggedForReview : Option Bool
  resubmissionComment : Option String
deriving DecidableEq

/-- The `Appointment` interface (page.tsx lines 20-29), as created by
`confirmScheduling` (the only writer of this collection). -/
structure Appointment where
  appointmentDate : String
  appointmentTime : String
  assignedDoctor : String
  patientUsername : String
  diagnosis : Option String
  medication : Option String
deriving DecidableEq

/-- The authenticated user (`auth.currentUser`): uid and nullable
displayName. -/
structure AuthUser where
  uid : String
  displayName : Option String
deriving DecidableEq

/-- The Firestore state the workflow reads and writes: the
`appointmentRequests` and `appointments` collections, plus the id counter
modelling `addDoc` id generation for requests. -/
structure Firestore where
  requests : List AppointmentRequest
  appointments : List Appointment
  nextRequestId : Nat
deriving DecidableEq

/-- JS truthiness of an optional boolean field: `undefined` and `false`
are falsy, only `true` is truthy (used as `!request.flaggedForReview`). -/
def jsFlagTruthy : Option Bool → Bool
  | none => false
  | some b => b

/-- JS truthiness of a nullable string: `null` and the empty string are
falsy (used as `!medicalReport.transcript`, `!selectedTimeSlot`). -/
def jsStrTruthy : Option String → Bool
  | none => false
  | some s => !(s == "")

/-- JS `o || dflt` on a nullable string (used as
`user.displayName || 'Anonymous'`, `auth.currentUser?.displayName || 'Doctor'`). -/
def jsOrDefault (o : Option String) (dflt : String) : String :=
  match o with
  | none => dflt
  | some s => if s = "" then dflt else s

/-- Rendering of `format(d, "PPP")` from date-fns: a deterministic,
injective textual rendering of the instant. -/
def formatPPP (d : Nat) : String := toString d

/-- Drop leading whitespace characters from a character list. -/
def dropWhitespaceLeft : List Char → List Char
  | [] => []
  | c :: cs => if c.isWhitespace then dropWhitespaceLeft cs else c :: cs

/-- JS `String.prototype.trim()`: strip leading and trailing whitespace
(whitespace restricted to the ASCII whitespace characters). -/
def jsTrim (s : String) : String :=
  String.mk ((dropWhitespaceLeft (dropWhitespaceLeft s.data.reverse).reverse))

/-- `updateDoc` on the `appointmentRequests` collection: merge the given
field updates into the document with the given id and leave every other
document untouched (Firestore ids are unique). -/
def updateRequestDoc (reqs : List AppointmentRequest) (docId : Nat)
    (f : AppointmentRequest → AppointmentRequest) : List AppointmentRequest :=
  reqs.map fun r => if r.id = docId then f r else r

/-- The field merge performed by `confirmScheduling`'s `updateDoc`
(page.tsx lines 606-611): status `'scheduled'`, the chosen date and time
slot, and the trimmed medication text. -/
def scheduleUpdate (d : Nat) (slot trimmedMedication : String)
    (r : AppointmentRequest) : AppointmentRequest :=
  { r with status := .scheduled, scheduledDate := some d,
           scheduledTime := some slot, medication := some trimmedMedication }

/-- The field merge performed by `handleFlagForReview`'s `updateDoc`
(page.tsx line 663): only `flaggedForReview: true`. -/
def flagUpdate (r : AppointmentRequest) : AppointmentRequest :=
  { r with flaggedForReview := some true }

/-- The field merge performed by `handleResubmit`'s `updateDoc`
(page.tsx lines 870-874): overwrite `symptoms` and `resubmissionComment`,
set `flaggedForReview: false`. -/
def resubmitUpdate (symptoms comment : String)
    (r : AppointmentRequest) : AppointmentRequest :=
  { r with symptoms := symptoms, flaggedForReview := some false,
           resubmissionComment := some comment }

/-- Doctor dashboard initial fetch of the pending queue (page.tsx lines
499-525): query `where('status', '==', 'pending')`, then the client-side
filter `requests.filter(request => !request.flaggedForReview)`. -/
def fetchPendingRequestsDoctor (reqs : List AppointmentRequest) :
    List AppointmentRequest :=
  (reqs.filter fun r => decide (r.status = RequestStatus.pending)).filter
    fun r => !jsFlagTruthy r.flaggedForReview

/-- Queue refresh at the end of `confirmScheduling` (page.tsx lines
637-649): the same pending query followed by the same flagged filter. -/
def refreshRequestsAfterScheduling (reqs : List AppointmentRequest) :
    List AppointmentRequest :=
  (reqs.filter fun r => decide (r.status = RequestStatus.pending)).filter
    fun r => !jsFlagTruthy r.flaggedForReview

/-- Queue refresh at the end of `handleFlagForReview` (page.tsx lines
668-680): the same pending query followed by the same flagged filter. -/
def refreshRequestsAfterFlagging (reqs : List AppointmentRequest) :
    List AppointmentRequest :=
  (reqs.filter fun r => decide (r.status = RequestStatus.pending)).filter
    fun r => !jsFlagTruthy r.flaggedForReview

/-- Outcome of `confirmScheduling`, distinguishing the two early-return
error toasts from the success path. -/
inductive SchedulingOutcome where
  | errSelection
  | errMedication
  | success
deriving DecidableEq

/-- `confirmScheduling` (page.tsx lines 584-658).  Guard 1: any of
`!selectedRequest || !date || !selectedTimeSlot` returns with the
"Please select a date and time slot." toast.  Guard 2: `!medication.trim()`
returns with the "Please enter basic medication details." toast.
Otherwise: `updateDoc` on the selected request's document (status
`'scheduled'`, scheduledDate, scheduledTime, trimmed medication) and
`addDoc` of one new `Appointment` built from the chosen values and the
selected request. -/
def confirmScheduling (selectedRequest : Option AppointmentRequest)
    (date : Option Nat) (selectedTimeSlot : Option String)
    (medication : String) (currentDoctorName : Option String)
    (db : Firestore) : Firestore × SchedulingOutcome :=
  match selectedRequest, date, selectedTimeSlot with
  | some req, some d, some slot =>
    if slot = "" then (db, .errSelection)
    else if jsTrim medication = "" then (db, .errMedication)
    else
      let requests := updateRequestDoc db.requests req.id
        (scheduleUpdate d slot (jsTrim medication))
      let newAppointment : Appointment :=
        { appointmentDate := formatPPP d, appointmentTime := slot,
          assignedDoctor := jsOrDefault currentDoctorName "Doctor",
          patientUsername := req.patientUsername,
          diagnosis := some req.diagnosis,
          medication := some (jsTrim medication) }
      ({ db with requests := requests,
                 appointments := db.appointments ++ [newAppointment] }, .success)
  | _, _, _ => (db, .errSelection)

/-- `handleFlagForReview` (page.tsx lines 660-688): `updateDoc` setting
only `flaggedForReview: true` on the request's document. -/
def handleFlagForReview (request : AppointmentRequest) (db : Firestore) :
    Firestore :=
  { db with requests := updateRequestDoc db.requests request.id flagUpdate }

/-- `handleResubmit` (page.tsx lines 866-888): `updateDoc` overwriting
`symptoms` and `resubmissionComment` and setting `flaggedForReview: false`
on the request's document; no other field is written. -/
def handleResubmit (request : AppointmentRequest) (symptoms comment : String)
    (db : Firestore) : Firestore :=
  { db with
    requests := updateRequestDoc db.requests request.id (resubmitUpdate symptoms comment) }

/-- Outcome of `handleContinue`, distinguishing the two early-return error
toasts from the success path. -/
inductive ContinueOutcome where
  | errIncompleteReport
  | errNotSignedIn
  | submitted
deriving DecidableEq

/-- `handleContinue` (page.tsx lines 259-308).  Guard 1:
`!medicalReport.transcript || !medicalReport.diagnosis` returns with an
error toast.  Guard 2: no signed-in user returns with an error toast.
Otherwise `addDoc` of a new `AppointmentRequest` with the literal fields
of lines 279-286 (status `'pending'`, no scheduledDate / scheduledTime /
flaggedForReview / resubmissionComment / medication field). -/
def handleContinue (transcript diagnosis : Option String)
    (user : Option AuthUser) (now : Nat) (db : Firestore) :
    Firestore × ContinueOutcome :=
  match transcript, diagnosis with
  | some t, some d =>
    if t = "" || d = "" then (db, .errIncompleteReport)
    else
      match user with
      | none => (db, .errNotSignedIn)
      | some u =>
        let newRequest : AppointmentRequest :=
          { id := db.nextRequestId, patientId := u.uid,
            patientUsername := jsOrDefault u.displayName "Anonymous",
            symptoms := t, diagnosis := d, medication := none,
            status := .pending, createdAt := now,
            scheduledDate := none, scheduledTime := none,
            flaggedForReview := none, resubmissionComment := none }
        ({ db with requests := db.requests ++ [newRequest],
                   nextRequestId := db.nextRequestId + 1 }, .submitted)
  | _, _ => (db, .errIncompleteReport)

/-- The toast notifications that `processAudio` can surface (page.tsx
lines 316-346). -/
inductive ToastKind where
  | processingTranscription
  | processingDiagnosis
  | processingComplete
  | processingFailed
deriving DecidableEq

/-- The two external steps of the voice pipeline. -/
inductive PipelineStep where
  | transcribeAudio
  | getDiagnosisFromTranscript
deriving DecidableEq

/-- The local UI state `processAudio` reads and writes: the medical
report (`transcript`, `diagnosis`), `reportReady`, `isProcessing`. -/
structure MedicalReport where
  transcript : Option String
  diagnosis : Option String
deriving DecidableEq

/-- Patient page state relevant to the voice pipeline. -/
structure PatientUIState where
  medicalReport : MedicalReport
  reportReady : Bool
  isProcessing : Bool
deriving DecidableEq

/-- Result of one run of `processAudio`: final UI state, the (untouched)
Firestore state, the external steps invoked in order, and the toasts
surfaced in order. -/
structure PipelineRun where
  state : PatientUIState
  db : Firestore
  steps : List PipelineStep
  toasts : List ToastKind
deriving DecidableEq

/-- `processAudio` (page.tsx lines 310-353).  Returns immediately when
`audioData` is null.  Otherwise: toast "Transcribing...", invoke
`transcribeAudio`; on throw the catch block surfaces the single generic
failure toast and the finally block clears `isProcessing`.  On success:
toast "Generating diagnosis...", invoke `getDiagnosisFromTranscript`;
same catch/finally on throw.  On success of both: store the report, set
`reportReady`, surface the completion toast.  The function performs no
Firestore access, so the database state is threaded through unchanged. -/
def processAudio {Audio : Type} (audioData : Option Audio)
    (transcribeAudioFn : Audio → Except String String)
    (getDiagnosisFn : String → Except String String)
    (st : PatientUIState) (db : Firestore) : PipelineRun :=
  match audioData with
  | none => ⟨st, db, [], []⟩
  | some a =>
    match transcribeAudioFn a with
    | .error _ =>
        ⟨{ st with isProcessing := false }, db, [.transcribeAudio],
         [.processingTranscription, .processingFailed]⟩
    | .ok transcript =>
      match getDiagnosisFn transcript with
      | .error _ =>
          ⟨{ st with isProcessing := false }, db,
           [.transcribeAudio, .getDiagnosisFromTranscript],
           [.processingTranscription, .processingDiagnosis, .processingFailed]⟩
      | .ok diagnosis =>
          ⟨{ medicalReport := { transcript := some transcript, diagnosis := some diagnosis },
             reportReady := true, isProcessing := false }, db,
           [.transcribeAudio, .getDiagnosisFromTranscript],
           [.processingTranscription, .processingDiagnosis, .processingComplete]⟩

/-- `fetchAssignedAppointments` (page.tsx lines 531-573): query
`where('assignedDoctor', '==', currentDoctor)` with
`currentDoctor = auth.currentUser?.displayName || 'Doctor'`, then a
stable ascending sort by the comparator
`new Date(a.appointmentDate + " " + a.appointmentTime).getTime() - (same for b)`;
the parsed numeric instant of an appointment is abstracted as the
function `instant`. -/
def fetchAssignedAppointments (currentDoctorName : Option String)
    (instant : Appointment → Int) (appts : List Appointment) :
    List Appointment :=
  (appts.filter fun a =>
      a.assignedDoctor == jsOrDefault currentDoctorName "Doctor").mergeSort
    fun a b => decide (instant a ≤ instant b)

/-- The workflow operations implemented in the repository that write the
`appointmentRequests` or `appointments` collections: patient submission,
doctor scheduling, doctor flagging, patient resubmission.  (The only
other Firestore write in the repository is `setDoc` on the `users`
collection in AuthForm.tsx.) -/
inductive WorkflowOp where
  | create (transcript diagnosis : Option String) (user : Option AuthUser) (now : Nat)
  | schedule (selectedRequest : Option AppointmentRequest) (date : Option Nat)
      (selectedTimeSlot : Option String) (medication : String)
      (currentDoctorName : Option String)
  | flag (request : AppointmentRequest)
  | resubmit (request : AppointmentRequest) (symptoms comment : String)
deriving DecidableEq

/-- Effect of one workflow operation on the Firestore state. -/
def applyOp (db : Firestore) : WorkflowOp → Firestore
  | .create t d u now => (handleContinue t d u now db).1
  | .schedule sel date slot med doctor => (confirmScheduling sel date slot med doctor db).1
  | .flag req => handleFlagForReview req db
  | .resubmit req s c => handleResubmit req s c db

/-- Whether an operation is the doctor's scheduling confirmation. -/
def WorkflowOp.isSchedule : WorkflowOp → Bool
  | .schedule _ _ _ _ _ => true
  | _ => false

/-- A sequence of workflow operations applied in order. -/
def runOps (db : Firestore) (ops : List WorkflowOp) : Firestore :=
  ops.foldl applyOp db

/-- A concrete pending, unflagged appointment request, used by witnesses. -/
def sampleRequest : AppointmentRequest :=
  { id := 0, patientId := "p1", patientUsername := "alice",
    symptoms := "cough", diagnosis := "common cold", medication := none,
    status := .pending, createdAt := 0, scheduledDate := none,
    scheduledTime := none, flaggedForReview := none,
    resubmissionComment := none }

/-- A concrete pending request that has been flagged for review. -/
def sampleFlaggedRequest : AppointmentRequest :=
  { sampleRequest with id := 1, flaggedForReview := some true }

/-- A concrete request already in the `completed` status. -/
def sampleCompletedRequest : AppointmentRequest :=
  { sampleRequest with id := 2, status := .completed }

/-- A concrete database holding only `sampleRequest`. -/
def sampleDB : Firestore :=
  { requests := [sampleRequest], appointments := [], nextRequestId := 3 }

/-- Membership transport through `updateRequestDoc`: the document whose
id is targeted is replaced by its update. -/
theorem mem_updateRequestDoc_of_mem {reqs : List AppointmentRequest}
    {r : AppointmentRequest} {docId : Nat}
    (f : AppointmentRequest → AppointmentRequest)
    (hmem : r ∈ reqs) (hid : r.id = docId) :
    f r ∈ updateRequestDoc reqs docId f := by
  have h := List.mem_map_of_mem (fun x => if x.id = docId then f x else x) hmem
  simpa [updateRequestDoc, hid] using h

/-- Membership transport through `updateRequestDoc`: documents with a
different id are untouched. -/
theorem mem_updateRequestDoc_of_ne {reqs : List AppointmentRequest}
    {r : AppointmentRequest} {docId : Nat}
    (f : AppointmentRequest → AppointmentRequest)
    (hmem : r ∈ reqs) (hid : r.id ≠ docId) :
    r ∈ updateRequestDoc reqs docId f := by
  have h := List.mem_map_of_mem (fun x => if x.id = docId then f x else x) hmem
  simpa [updateRequestDoc, hid] using h

/-- Every element of `updateRequestDoc reqs docId f` is an element of
`reqs` or the image under `f` of an element of `reqs`. -/
theorem of_mem_updateRequestDoc {reqs : List AppointmentRequest}
    {r : AppointmentRequest} {docId : Nat}
    {f : AppointmentRequest → AppointmentRequest}
    (hr : r ∈ updateRequestDoc reqs docId f) :
    ∃ x ∈ reqs, r = x ∨ r = f x := by
  rcases List.mem_map.mp hr with ⟨x, hx, hEq⟩
  refine ⟨x, hx, ?_⟩
  by_cases hid : x.id = docId
  · right; rw [← hEq, if_pos hid]
  · left; rw [← hEq, if_neg hid]

/-- C1: every request in the doctor's pending queue, as produced by any
of the three queue computations (initial fetch, refresh after scheduling,
refresh after flagging), has `flaggedForReview ≠ some true`: a flagged
request is excluded from the displayed pending queue. -/
theorem pendingQueue_excludes_flagged (reqs : List AppointmentRequest)
    (r : AppointmentRequest) :
    (r ∈ fetchPendingRequestsDoctor reqs → r.flaggedForReview ≠ some true) ∧
    (r ∈ refreshRequestsAfterScheduling reqs → r.flaggedForReview ≠ some true) ∧
    (r ∈ refreshRequestsAfterFlagging reqs → r.flaggedForReview ≠ some true) := by
  refine ⟨fun hmem => ?_, fun hmem => ?_, fun hmem => ?_⟩ <;>
  · intro heq
    simp only [fetchPendingRequestsDoctor, refreshRequestsAfterScheduling,
      refreshRequestsAfterFlagging] at hmem
    rcases List.mem_filter.mp hmem with ⟨-, hflag⟩
    rw [heq] at hflag
    simp [jsFlagTruthy] at hflag

/-- C1 witness: a concrete unflagged pending request appears in the
fetched queue and indeed does not carry `flaggedForReview = true`. -/
theorem pendingQueue_excludes_flagged_witness :
    sampleRequest ∈ fetchPendingRequestsDoctor [sampleRequest] ∧
    sampleRequest.flaggedForReview ≠ some true :=
  ⟨by decide,
   (pendingQueue_excludes_flagged [sampleRequest] sampleRequest).1 (by decide)⟩

/-- C3: resubmission on a flagged request's document sets
`flaggedForReview` to `false`, overwrites `symptoms` and
`resubmissionComment`, and changes nothing else: the updated document
keeps its id, status (pending stays pending), patientId, patientUsername,
diagnosis, createdAt, medication, scheduledDate and scheduledTime; every
other document and the appointments collection are untouched. -/
theorem handleResubmit_clears_flag_frame (db : Firestore)
    (req r : AppointmentRequest) (symptoms comment : String)
    (hmem : r ∈ db.requests) (hid : r.id = req.id) :
    resubmitUpdate symptoms comment r ∈
      (handleResubmit req symptoms comment db).requests ∧
    (resubmitUpdate symptoms comment r).flaggedForReview = some false ∧
    (resubmitUpdate symptoms comment r).symptoms = symptoms ∧
    (resubmitUpdate symptoms comment r).resubmissionComment = some comment ∧
    (resubmitUpdate symptoms comment r).id = r.id ∧
    (resubmitUpdate symptoms comment r).status = r.status ∧
    (r.status = .pending → (resubmitUpdate symptoms comment r).status = .pending) ∧
    (resubmitUpdate symptoms comment r).patientId = r.patientId ∧
    (resubmitUpdate symptoms comment r).patientUsername = r.patientUsername ∧
    (resubmitUpdate symptoms comment r).diagnosis = r.diagnosis ∧
    (resubmitUpdate symptoms comment r).createdAt = r.createdAt ∧
    (resubmitUpdate symptoms comment r).medication = r.medication ∧
    (resubmitUpdate symptoms comment r).scheduledDate = r.scheduledDate ∧
    (resubmitUpdate symptoms comment r).scheduledTime = r.scheduledTime ∧
    (∀ r2 ∈ db.requests, r2.id ≠ req.id →
      r2 ∈ (handleResubmit req symptoms comment db).requests) ∧
    (handleResubmit req symptoms comment db).appointments = db.appointments ∧
    (handleResubmit req symptoms comment db).requests.length =
      db.requests.length := by
  refine ⟨?_, rfl, rfl, rfl, rfl, rfl, fun h => h, rfl, rfl, rfl, rfl, rfl,
    rfl, rfl, fun r2 h2 hne => ?_, rfl, ?_⟩
  · show resubmitUpdate symptoms comment r ∈
      updateRequestDoc db.requests req.id (resubmitUpdate symptoms comment)
    exact mem_updateRequestDoc_of_mem _ hmem hid
  · show r2 ∈ updateRequestDoc db.requests req.id (resubmitUpdate symptoms comment)
    exact mem_updateRequestDoc_of_ne _ h2 hne
  · simp [handleResubmit, updateRequestDoc]

/-- C3 witness: resubmitting the concrete flagged request clears the flag
and preserves every untouched field. -/
theorem handleResubmit_clears_flag_frame_witness :
    resubmitUpdate "fever and cough" "symptoms got worse" sampleFlaggedRequest ∈
      (handleResubmit sampleFlaggedRequest "fever and cough" "symptoms got worse"
        { requests := [sampleFlaggedRequest], appointments := [],
          nextRequestId := 3 }).requests ∧
    (resubmitUpdate "fever and cough" "symptoms got worse"
      sampleFlaggedRequest).flaggedForReview = some false :=
  ⟨(handleResubmit_clears_flag_frame
      { requests := [sampleFlaggedRequest], appointments := [], nextRequestId := 3 }
      sampleFlaggedRequest sampleFlaggedRequest "fever and cough"
      "symptoms got worse" (by decide) (by decide)).1,
   (handleResubmit_clears_flag_frame
      { requests := [sampleFlaggedRequest], appointments := [], nextRequestId := 3 }
      sampleFlaggedRequest sampleFlaggedRequest "fever and cough"
      "symptoms got worse" (by decide) (by decide)).2.1⟩

/-- C2: with a selected request, chosen date and time slot, and non-empty
medication, one run of `confirmScheduling` succeeds: it merges status
`'scheduled'`, the chosen date, the chosen slot and the trimmed
medication into the selected request's document (pending becomes
scheduled), and appends exactly one new `Appointment` whose
patientUsername and diagnosis are copied from the request and whose date,
time and medication equal the chosen values. -/
theorem confirmScheduling_pending_to_scheduled (db : Firestore)
    (req : AppointmentRequest) (d : Nat) (slot medication : String)
    (doctorName : Option String) (hmem : req ∈ db.requests)
    (hslot : slot ≠ "") (hmed : jsTrim medication ≠ "")
    (hpending : req.status = .pending) :
    (confirmScheduling (some req) (some d) (some slot) medication doctorName db).2 =
      .success ∧
    scheduleUpdate d slot (jsTrim medication) req ∈
      (confirmScheduling (some req) (some d) (some slot) medication doctorName
        db).1.requests ∧
    (scheduleUpdate d slot (jsTrim medication) req).status = .scheduled ∧
    (scheduleUpdate d slot (jsTrim medication) req).scheduledDate = some d ∧
    (scheduleUpdate d slot (jsTrim medication) req).scheduledTime = some slot ∧
    (scheduleUpdate d slot (jsTrim medication) req).medication = some (jsTrim medication) ∧
    (confirmScheduling (some req) (some d) (some slot) medication doctorName
        db).1.appointments =
      db.appointments ++
        [{ appointmentDate := formatPPP d, appointmentTime := slot,
           assignedDoctor := jsOrDefault doctorName "Doctor",
           patientUsername := req.patientUsername,
           diagnosis := some req.diagnosis,
           medication := some (jsTrim medication) }] := by
  simp only [confirmScheduling, if_neg hslot, if_neg hmed]
  refine ⟨by trivial, ?_, by trivial, by trivial, by trivial, by trivial, by trivial⟩
  exact mem_updateRequestDoc_of_mem _ hmem rfl

/-- C2 witness: scheduling the concrete pending request with a concrete
date, slot and medication succeeds and appends the expected appointment. -/
theorem confirmScheduling_pending_to_scheduled_witness :
    (confirmScheduling (some sampleRequest) (some 100) (some "9:00 AM")
      " ibuprofen " (some "bob") sampleDB).2 = .success ∧
    (confirmScheduling (some sampleRequest) (some 100) (some "9:00 AM")
      " ibuprofen " (some "bob") sampleDB).1.appointments =
      sampleDB.appointments ++
        [{ appointmentDate := formatPPP 100, appointmentTime := "9:00 AM",
           assignedDoctor := jsOrDefault (some "bob") "Doctor",
           patientUsername := sampleRequest.patientUsername,
           diagnosis := some sampleRequest.diagnosis,
           medication := some (jsTrim " ibuprofen ") }] :=
  ⟨(confirmScheduling_pending_to_scheduled sampleDB sampleRequest 100 "9:00 AM"
      " ibuprofen " (some "bob") (by decide) (by decide) (by decide) (by decide)).1,
   (confirmScheduling_pending_to_scheduled sampleDB sampleRequest 100 "9:00 AM"
      " ibuprofen " (some "bob") (by decide) (by decide) (by decide)
      (by decide)).2.2.2.2.2.2⟩

/-- C4: `confirmScheduling` is an unconditional document update: it never
inspects the stored document's status or flaggedForReview before writing,
so for a stored request in any status (pending, scheduled or completed)
the same run applies — the document is merged to status `'scheduled'` and
one new Appointment record is appended. -/
theorem confirmScheduling_unconditional (db : Firestore)
    (req : AppointmentRequest) (d : Nat) (slot medication : String)
    (doctorName : Option String) (hslot : slot ≠ "")
    (hmed : jsTrim medication ≠ "") :
    (confirmScheduling (some req) (some d) (some slot) medication doctorName db).2 =
      .success ∧
    (confirmScheduling (some req) (some d) (some slot) medication doctorName
        db).1.requests =
      updateRequestDoc db.requests req.id (scheduleUpdate d slot (jsTrim medication)) ∧
    (∀ r ∈ db.requests, r.id = req.id →
      scheduleUpdate d slot (jsTrim medication) r ∈
        (confirmScheduling (some req) (some d) (some slot) medication doctorName
          db).1.requests ∧
      (scheduleUpdate d slot (jsTrim medication) r).status = .scheduled) ∧
    ∃ a, (confirmScheduling (some req) (some d) (some slot) medication doctorName
        db).1.appointments = db.appointments ++ [a] := by
  simp only [confirmScheduling, if_neg hslot, if_neg hmed]
  refine ⟨by trivial, by trivial,
    fun r hr hid => ⟨mem_updateRequestDoc_of_mem _ hr hid, by trivial⟩, _, by trivial⟩

/-- C4 witness: scheduling a request whose stored status is `completed`
still succeeds and still merges status `'scheduled'` into it. -/
theorem confirmScheduling_unconditional_witness :
    (confirmScheduling (some sampleCompletedRequest) (some 5) (some "10:00 AM")
      "rest" none
      { requests := [sampleCompletedRequest], appointments := [],
        nextRequestId := 3 }).2 = .success ∧
    (scheduleUpdate 5 "10:00 AM" (jsTrim "rest") sampleCompletedRequest).status =
      .scheduled :=
  ⟨(confirmScheduling_unconditional
      { requests := [sampleCompletedRequest], appointments := [], nextRequestId := 3 }
      sampleCompletedRequest 5 "10:00 AM" "rest" none (by decide) (by decide)).1,
   ((confirmScheduling_unconditional
      { requests := [sampleCompletedRequest], appointments := [], nextRequestId := 3 }
      sampleCompletedRequest 5 "10:00 AM" "rest" none (by decide) (by decide)).2.2.1
      sampleCompletedRequest (by decide) (by decide)).2⟩

/-- C9: when no request is selected, or no date or time slot is chosen,
or the medication text is empty or whitespace-only, `confirmScheduling`
performs no write at all — the database is returned unchanged — and the
outcome is one of the two error notifications. -/
theorem confirmScheduling_guard_no_write (sel : Option AppointmentRequest)
    (date : Option Nat) (slot : Option String) (medication : String)
    (doctorName : Option String) (db : Firestore)
    (h : sel = none ∨ date = none ∨ slot = none ∨ jsTrim medication = "") :
    (confirmScheduling sel date slot medication doctorName db).1 = db ∧
    ((confirmScheduling sel date slot medication doctorName db).2 =
        .errSelection ∨
     (confirmScheduling sel date slot medication doctorName db).2 =
        .errMedication) := by
  rcases sel with _ | req
  · exact ⟨rfl, Or.inl rfl⟩
  rcases date with _ | d
  · exact ⟨rfl, Or.inl rfl⟩
  rcases slot with _ | s
  · exact ⟨rfl, Or.inl rfl⟩
  have hmed : jsTrim medication = "" := by
    rcases h with h | h | h | h
    · exact (Option.some_ne_none req h).elim
    · exact (Option.some_ne_none d h).elim
    · exact (Option.some_ne_none s h).elim
    · exact h
  by_cases hs : s = ""
  · simp only [confirmScheduling, if_pos hs]
    exact ⟨by trivial, Or.inl (by trivial)⟩
  · simp only [confirmScheduling, if_neg hs, if_pos hmed]
    exact ⟨by trivial, Or.inr (by trivial)⟩

/-- C9 witness: with no selected request the database is unchanged. -/
theorem confirmScheduling_guard_no_write_witness :
    (confirmScheduling none (some 1) (some "9:00 AM") "med" none sampleDB).1 =
      sampleDB ∧
    ((confirmScheduling none (some 1) (some "9:00 AM") "med" none sampleDB).2 =
        .errSelection ∨
     (confirmScheduling none (some 1) (some "9:00 AM") "med" none sampleDB).2 =
        .errMedication) :=
  confirmScheduling_guard_no_write none (some 1) (some "9:00 AM") "med" none
    sampleDB (Or.inl rfl)

/-- C7: a successful patient submission (`handleContinue`) creates exactly
one new request in the initial state — status pending, symptoms equal to
the pipeline transcript, diagnosis equal to the generated diagnosis,
patientId equal to the signed-in user's uid, and no scheduledDate,
scheduledTime or flaggedForReview field — and when the transcript or the
diagnosis is absent (JS-falsy) or no user is signed in, the database is
unchanged. -/
theorem handleContinue_initial_state (t d : String) (u : AuthUser)
    (now : Nat) (db : Firestore) (ht : t ≠ "") (hd : d ≠ "") :
    (handleContinue (some t) (some d) (some u) now db).2 = .submitted ∧
    (handleContinue (some t) (some d) (some u) now db).1.requests =
      db.requests ++
        [{ id := db.nextRequestId, patientId := u.uid,
           patientUsername := jsOrDefault u.displayName "Anonymous",
           symptoms := t, diagnosis := d, medication := none,
           status := .pending, createdAt := now, scheduledDate := none,
           scheduledTime := none, flaggedForReview := none,
           resubmissionComment := none }] ∧
    (handleContinue (some t) (some d) (some u) now db).1.appointments =
      db.appointments ∧
    (∀ (transcript diagnosis : Option String) (user : Option AuthUser),
      jsStrTruthy transcript = false ∨ jsStrTruthy diagnosis = false ∨
        user = none →
      (handleContinue transcript diagnosis user now db).1 = db) := by
  have hc : ¬ ((decide (t = "") || decide (d = "")) = true) := by
    simp [ht, hd]
  simp only [handleContinue]
  rw [if_neg hc]
  refine ⟨rfl, rfl, rfl, ?_⟩
  intro tr dg us hfalsy
  rcases tr with _ | ts
  · rfl
  rcases dg with _ | ds
  · rfl
  rcases hfalsy with hfalsy | hfalsy | hfalsy
  · have hts : ts = "" := by simpa [jsStrTruthy] using hfalsy
    simp [handleContinue, hts]
  · have hds : ds = "" := by simpa [jsStrTruthy] using hfalsy
    simp [handleContinue, hds]
  · subst hfalsy
    simp only [handleContinue]
    split
    · rfl
    · rfl

/-- C7 witness: a concrete submission with transcript, diagnosis and a
signed-in user succeeds. -/
theorem handleContinue_initial_state_witness :
    (handleContinue (some "sore throat") (some "pharyngitis")
      (some { uid := "u1", displayName := some "alice" }) 7 sampleDB).2 =
      .submitted :=
  (handleContinue_initial_state "sore throat" "pharyngitis"
    { uid := "u1", displayName := some "alice" } 7 sampleDB
    (by decide) (by decide)).1

/-- A concrete patient UI state with an empty medical report. -/
def sampleUIState : PatientUIState :=
  { medicalReport := { transcript := none, diagnosis := none },
    reportReady := false, isProcessing := false }

/-- C5: if the transcription step or the diagnosis step of the voice
pipeline fails, the whole run of `processAudio` aborts: the medical
report is unchanged (a null transcript and diagnosis stay null),
reportReady is unchanged, no appointment request is persisted, exactly
one generic failure toast and no completion toast is surfaced,
transcription is invoked exactly once (no retry), the diagnosis step is
not invoked at all when transcription fails, and is invoked at most once
otherwise; the error is swallowed, not rethrown. -/
theorem processAudio_failure_aborts {Audio : Type} (a : Audio)
    (transcribeAudioFn : Audio → Except String String)
    (getDiagnosisFn : String → Except String String)
    (st : PatientUIState) (db : Firestore)
    (hfail : (∃ e, transcribeAudioFn a = .error e) ∨
      (∃ t e, transcribeAudioFn a = .ok t ∧ getDiagnosisFn t = .error e)) :
    (processAudio (some a) transcribeAudioFn getDiagnosisFn st db).state.medicalReport =
      st.medicalReport ∧
    (processAudio (some a) transcribeAudioFn getDiagnosisFn st db).state.reportReady =
      st.reportReady ∧
    (processAudio (some a) transcribeAudioFn getDiagnosisFn st db).db = db ∧
    (processAudio (some a) transcribeAudioFn getDiagnosisFn st db).toasts.count
      ToastKind.processingFailed = 1 ∧
    ToastKind.processingComplete ∉
      (processAudio (some a) transcribeAudioFn getDiagnosisFn st db).toasts ∧
    (processAudio (some a) transcribeAudioFn getDiagnosisFn st db).steps.count
      PipelineStep.transcribeAudio = 1 ∧
    ((∃ e, transcribeAudioFn a = .error e) →
      PipelineStep.getDiagnosisFromTranscript ∉
        (processAudio (some a) transcribeAudioFn getDiagnosisFn st db).steps) ∧
    (processAudio (some a) transcribeAudioFn getDiagnosisFn st db).steps.count
      PipelineStep.getDiagnosisFromTranscript ≤ 1 := by
  rcases hfail with ⟨e, he⟩ | ⟨t, e, ht, he⟩
  · have hrun : processAudio (some a) transcribeAudioFn getDiagnosisFn st db =
        ⟨{ st with isProcessing := false }, db, [.transcribeAudio],
         [.processingTranscription, .processingFailed]⟩ := by
      simp only [processAudio, he]
    rw [hrun]
    exact ⟨rfl, rfl, rfl, by simp, by simp, by simp, fun _ => by simp, by simp⟩
  · have hrun : processAudio (some a) transcribeAudioFn getDiagnosisFn st db =
        ⟨{ st with isProcessing := false }, db,
         [.transcribeAudio, .getDiagnosisFromTranscript],
         [.processingTranscription, .processingDiagnosis, .processingFailed]⟩ := by
      simp only [processAudio, ht, he]
    rw [hrun]
    refine ⟨rfl, rfl, rfl, by simp, by simp, by simp, fun hcon => ?_, by simp⟩
    rcases hcon with ⟨e2, he2⟩
    rw [ht] at he2
    exact Except.noConfusion he2

/-- C5 witness: a failing transcription call leaves the database and the
report untouched. -/
theorem processAudio_failure_aborts_witness :
    (processAudio (some 0) (fun _ : Nat => Except.error "network down")
      (fun s => Except.ok s) sampleUIState sampleDB).db = sampleDB :=
  (processAudio_failure_aborts 0 (fun _ : Nat => Except.error "network down")
    (fun s => Except.ok s) sampleUIState sampleDB
    (Or.inl ⟨"network down", rfl⟩)).2.2.1

/-- No workflow operation writes the status `completed`: one step
preserves the absence of completed requests. -/
theorem applyOp_no_completed (db : Firestore) (op : WorkflowOp)
    (h : ∀ r ∈ db.requests, r.status ≠ .completed) :
    ∀ r ∈ (applyOp db op).requests, r.status ≠ .completed := by
  cases op with
  | create t d u now =>
    intro r hr
    rcases t with _ | ts
    · exact h r hr
    rcases d with _ | ds
    · exact h r hr
    simp only [applyOp, handleContinue] at hr
    split at hr
    · exact h r hr
    · rcases u with _ | us
      · exact h r hr
      · rcases List.mem_append.mp hr with hmem | hmem
        · exact h r hmem
        · have heq := List.mem_singleton.mp hmem
          rw [heq]
          simp
  | schedule sel date slot med doctor =>
    intro r hr
    rcases sel with _ | req
    · exact h r hr
    rcases date with _ | dd
    · exact h r hr
    rcases slot with _ | ss
    · exact h r hr
    simp only [applyOp, confirmScheduling] at hr
    split at hr
    · exact h r hr
    split at hr
    · exact h r hr
    · rcases of_mem_updateRequestDoc hr with ⟨x, hx, heq | heq⟩
      · rw [heq]; exact h x hx
      · rw [heq]; simp [scheduleUpdate]
  | flag req =>
    intro r hr
    rcases of_mem_updateRequestDoc hr with ⟨x, hx, heq | heq⟩
    · rw [heq]; exact h x hx
    · rw [heq]; exact h x hx
  | resubmit req s c =>
    intro r hr
    rcases of_mem_updateRequestDoc hr with ⟨x, hx, heq | heq⟩
    · rw [heq]; exact h x hx
    · rw [heq]; exact h x hx

/-- C8: `completed` is a dead state: starting from a database without
completed requests, no sequence of the implemented workflow operations
(create, schedule, flag, resubmit) ever produces a request whose status
is `completed`. -/
theorem completed_unreachable (db : Firestore) (ops : List WorkflowOp)
    (h : ∀ r ∈ db.requests, r.status ≠ .completed) :
    ∀ r ∈ (runOps db ops).requests, r.status ≠ .completed := by
  induction ops generalizing db with
  | nil => exact h
  | cons op rest ih => exact ih (applyOp db op) (applyOp_no_completed db op h)

/-- C8 witness: after flagging the concrete pending request, its updated
document is still not completed. -/
theorem completed_unreachable_witness :
    (flagUpdate sampleRequest).status ≠ .completed :=
  completed_unreachable sampleDB [WorkflowOp.flag sampleRequest] (by decide)
    (flagUpdate sampleRequest) (by decide)

/-- One workflow operation either leaves the appointments collection
unchanged or — only when it is the doctor's scheduling confirmation —
appends exactly one new record. -/
theorem applyOp_appointments (db : Firestore) (op : WorkflowOp) :
    (applyOp db op).appointments = db.appointments ∨
      (op.isSchedule = true ∧
        ∃ a, (applyOp db op).appointments = db.appointments ++ [a]) := by
  cases op with
  | create t d u now =>
    left
    rcases t with _ | ts
    · rfl
    rcases d with _ | ds
    · rfl
    simp only [applyOp, handleContinue]
    split
    · rfl
    · rcases u with _ | us <;> rfl
  | schedule sel date slot med doctor =>
    rcases sel with _ | req
    · exact Or.inl rfl
    rcases date with _ | dd
    · exact Or.inl rfl
    rcases slot with _ | ss
    · exact Or.inl rfl
    simp only [applyOp, confirmScheduling]
    split
    · exact Or.inl rfl
    split
    · exact Or.inl rfl
    · exact Or.inr ⟨rfl, _, rfl⟩
  | flag req => exact Or.inl rfl
  | resubmit req s c => exact Or.inl rfl

/-- C6: the appointments collection is append-only and written only by
the doctor's scheduling confirmation: a single operation either leaves it
unchanged or, exactly when it is a schedule operation, appends one
record; hence over any sequence of operations the existing appointment
records are preserved unchanged, new ones only being appended at the
end. -/
theorem appointments_append_only :
    (∀ (db : Firestore) (op : WorkflowOp),
      (applyOp db op).appointments = db.appointments ∨
        (op.isSchedule = true ∧
          ∃ a, (applyOp db op).appointments = db.appointments ++ [a])) ∧
    (∀ (db : Firestore) (ops : List WorkflowOp),
      ∃ tail, (runOps db ops).appointments = db.appointments ++ tail) := by
  refine ⟨applyOp_appointments, ?_⟩
  intro db ops
  induction ops generalizing db with
  | nil => exact ⟨[], by simp [runOps]⟩
  | cons op rest ih =>
    rcases ih (applyOp db op) with ⟨t2, ht2⟩
    rcases applyOp_appointments db op with heq | ⟨-, a, ha⟩
    · refine ⟨t2, ?_⟩
      show (runOps (applyOp db op) rest).appointments = db.appointments ++ t2
      rw [ht2, heq]
    · refine ⟨a :: t2, ?_⟩
      show (runOps (applyOp db op) rest).appointments =
        db.appointments ++ (a :: t2)
      rw [ht2, ha]
      simp

/-- C10: the doctor's assigned-appointments list is sorted ascending by
the parsed date-time instant: for every pair of adjacent entries of the
fetched list, the instant of the first is at most the instant of the
second. -/
theorem assignedAppointments_sorted (doctorName : Option String)
    (instant : Appointment → Int) (appts : List Appointment)
    (i : Nat)
    (h : i + 1 < (fetchAssignedAppointments doctorName instant appts).length) :
    instant ((fetchAssignedAppointments doctorName instant appts).get
        ⟨i, by omega⟩) ≤
      instant ((fetchAssignedAppointments doctorName instant appts).get
        ⟨i + 1, h⟩) := by
  have hp : (fetchAssignedAppointments doctorName instant appts).Pairwise
      (fun a b => (decide (instant a ≤ instant b)) = true) := by
    exact List.sorted_mergeSort
      (fun a b c hab hbc => by
        simp only [decide_eq_true_eq] at hab hbc ⊢
        omega)
      (fun a b => by
        simp only [Bool.or_eq_true, decide_eq_true_eq]
        exact Int.le_total _ _)
      _
  have hlt : i < (fetchAssignedAppointments doctorName instant appts).length := by
    omega
  have hrel := List.pairwise_iff_getElem.mp hp i (i + 1) hlt h (by omega)
  simpa using hrel

/-- A concrete instant key for the C10 witness: the length in characters
of the appointment's time field. -/
def sampleInstant (a : Appointment) : Int := Int.ofNat a.appointmentTime.length

/-- A concrete appointment assigned to the default doctor name. -/
def sampleAppointmentA : Appointment :=
  { appointmentDate := "1", appointmentTime := "10:00 AM",
    assignedDoctor := "Doctor", patientUsername := "alice",
    diagnosis := some "cold", medication := some "rest" }

/-- A second concrete appointment assigned to the default doctor name. -/
def sampleAppointmentB : Appointment :=
  { appointmentDate := "2", appointmentTime := "9:00 AM",
    assignedDoctor := "Doctor", patientUsername := "bob",
    diagnosis := some "flu", medication := some "fluids" }

/-- C10 witness: a concrete two-element fetch is sorted at its adjacent
pair. -/
theorem assignedAppointments_sorted_witness :
    0 + 1 < (fetchAssignedAppointments none sampleInstant
        [sampleAppointmentA, sampleAppointmentB]).length ∧
    sampleInstant ((fetchAssignedAppointments none sampleInstant
        [sampleAppointmentA, sampleAppointmentB]).get
          ⟨0, by simp only [fetchAssignedAppointments, List.length_mergeSort]; decide⟩) ≤
      sampleInstant ((fetchAssignedAppointments none sampleInstant
        [sampleAppointmentA, sampleAppointmentB]).get
          ⟨0 + 1, by simp only [fetchAssignedAppointments, List.length_mergeSort]; decide⟩) := by
  have hlen : 0 + 1 < (fetchAssignedAppointments none sampleInstant
      [sampleAppointmentA, sampleAppointmentB]).length := by
    simp only [fetchAssignedAppointments, List.length_mergeSort]
    decide
  exact ⟨hlen, assignedAppointments_sorted none sampleInstant
    [sampleAppointmentA, sampleAppointmentB] 0 hlen⟩
